import Mathlib

/-!
# goribot `net.go`: Request, Response and Download

A shallow embedding of `src/net.go`.

* Go pointers and maps that may be nil are `Option`s (`none` is nil).
* A call that dereferences nil or writes to a nil map panics; a panicking call
  returns `none`.  `Download` panics on a nil `Url` (line 96) and on a nil
  entry of `Cookie` (lines 104-106).
* `Download` returns the Go pair `(*Response, error)` as two independent
  `Option`s, so that "exactly one of the two is non-nil" is a property of the
  code and not of the type.
* The collaborators that `net.go` imports (`net/http`, `net/url`, `io/ioutil`,
  `goquery`, `encoding/json`, `net/textproto`) are the fields of `Env`; every
  theorem quantifies over all of them.  A call `v, err := f(..)` followed by
  `if err != nil` is a case split on `Except GoError _`.
* `Download` also records, in order, the collaborator calls it makes, so that
  "the transport is executed once / never" can be stated.
* The four collaborators whose error `Download` checks return a non-nil value
  whenever their error is nil (their documented contract), hence `Except`.
  The two whose error `Download` discards, the markup parser and the decoder,
  keep the Go shape of a value next to an error.
-/

namespace Goribot

/-! ## Data model -/

/-- One byte of a Go byte slice. -/
abbrev Byte := Fin 256

/-- A Go byte slice. -/
abbrev Bytes := List Byte

/-- A Go string is an immutable sequence of bytes; it need not be valid UTF-8. -/
structure GoString where
  bytes : List Byte
deriving DecidableEq, Repr

/-- The Go conversion from a byte slice to a string: a byte-for-byte copy. -/
def GoString.ofBytes (b : Bytes) : GoString := ⟨b⟩

/-- The Go conversion from a string to a byte slice: a byte-for-byte copy. -/
def GoString.toBytes (s : GoString) : Bytes := s.bytes

/-- A Go error value handed back by a collaborator. -/
structure GoError where
  msg : String
deriving DecidableEq, Repr

/-- The parsed URL type of `net/url` (the fields that matter here). -/
structure URL where
  Scheme : String := ""
  Host : String := ""
  Path : String := ""
deriving DecidableEq, Repr

/-- A non-nil `http.Header`: a map from header name to its values.  The first
entry for a key is the map's entry for it. -/
abbrev Header := List (String × List String)

/-- An `http.Cookie` as `AddCookie` builds it: name and value, the rest zero. -/
structure Cookie where
  Name : String
  Value : String
deriving DecidableEq, Repr

/-- Request  is request struct (`net.go` lines 25-33).  `Url` is a pointer and
`Header` a map, both may be nil.  `Cookie` is a slice of pointers, each of
which may be nil. -/
structure Request where
  Url : Option URL
  Method : String
  Cookie : List (Option Cookie)
  Header : Option Header
  Body : Bytes
  Proxy : String
deriving DecidableEq, Repr

/-- The transport-level request of `net/http`. -/
structure HttpRequest where
  Method : String
  Url : String
  Header : Header
  Body : Bytes
deriving DecidableEq, Repr

/-- The body stream of a transport reply, read by `ioutil.ReadAll`. -/
structure BodyReader where
  handle : Nat
deriving DecidableEq, Repr

/-- The transport reply of `net/http`. -/
structure HttpResponse where
  StatusCode : Int
  Header : Option Header
  Body : BodyReader
deriving DecidableEq, Repr

/-- A parsed markup document of `goquery`. -/
structure Document where
  Nodes : List String
deriving DecidableEq, Repr

/-- The Go type `map[string]interface{}`, non-nil; a value is kept as its text. -/
abbrev JsonMap := List (String × String)

/-- An `http.Client`: its timeout in seconds and the proxy of its transport. -/
structure Client where
  Timeout : Nat
  Proxy : Option URL
deriving DecidableEq, Repr

/-- Response  is response struct (`net.go` lines 74-87). -/
structure Response where
  Url : Option URL
  Status : Int
  Header : Option Header
  Body : Bytes
  Request : Request
  HttpResponse : HttpResponse
  Text : GoString
  Html : Option Document
  Json : Option JsonMap
deriving DecidableEq, Repr

/-- The error values `Download` returns: a collaborator's error passed on as
it is, or `HttpErr` (`net.go` lines 151-155), which embeds the cause and
carries the Request. -/
inductive Error where
  | plain (e : GoError)
  | HttpErr (error : GoError) (Request : Request)
deriving DecidableEq, Repr

/-- The collaborators of `net.go`. -/
structure Env where
  /-- The key canonicalisation of `net/textproto`, used by `Header.Set`/`Get`. -/
  CanonicalMIMEHeaderKey : String → String
  /-- The cookie name sanitiser of `net/http`. -/
  sanitizeCookieName : String → String
  /-- The cookie value sanitiser of `net/http`. -/
  sanitizeCookieValue : String → String
  /-- The method `String` of a non-nil `*url.URL`. -/
  urlString : URL → String
  /-- The constructor `http.NewRequest(method, url, body)`. -/
  NewRequest : String → String → Bytes → Except GoError HttpRequest
  /-- The parser `url.Parse(rawurl)`. -/
  Parse : String → Except GoError URL
  /-- The method `Do` of an `http.Client`. -/
  Do : Client → HttpRequest → Except GoError HttpResponse
  /-- The reader `ioutil.ReadAll`. -/
  ReadAll : BodyReader → Except GoError Bytes
  /-- The parser `goquery.NewDocumentFromReader`: the Go pair of a document
  pointer and an error.  `Download` discards the error, so the pointer returned
  next to an error matters (goquery returns nil there). -/
  NewDocumentFromReader : Bytes → Option Document × Option GoError
  /-- The decoder `json.Unmarshal(data, &j)`: from the data and the map `j`
  held before the call, the map `j` holds after the call and the returned
  error.  `Download` discards the error, so what a failing call leaves in `j`
  matters (`encoding/json` skips a value that does not fit, goes on, and
  returns the first such error at the end). -/
  Unmarshal : Bytes → Option JsonMap → Option JsonMap × Option GoError

/-- A collaborator call made by `Download`. -/
inductive Call where
  | NewRequest (method url : String) (body : Bytes)
  | Parse (rawurl : String)
  | Do (c : Client) (req : HttpRequest)
  | ReadAll (b : BodyReader)
  | NewDocumentFromReader (b : Bytes)
  | Unmarshal (b : Bytes)
  | Close (b : BodyReader)
deriving DecidableEq, Repr

/-- What a call of `Download` that does not panic yields: the returned pair
and the collaborator calls made, in order. -/
structure Result where
  resp : Option Response
  err : Option Error
  calls : List Call
deriving DecidableEq, Repr

/-! ## `http.Header` -/

/-- The map read `h[key]` (nil slice, here `[]`, when the key is absent). -/
def Header.index (h : Header) (key : String) : List String :=
  match h.lookup key with
  | some vs => vs
  | none => []

/-- The map write `h[key] = vs`. -/
def Header.assign (h : Header) (key : String) (vs : List String) : Header :=
  (key, vs) :: h.filter (fun p => p.1 != key)

/-- The method `Header.Set`: `h[CanonicalMIMEHeaderKey(key)] = []string{value}`. -/
def Header.Set (e : Env) (h : Header) (key value : String) : Header :=
  Header.assign h (e.CanonicalMIMEHeaderKey key) [value]

/-- The method `Header.Values`: `h[CanonicalMIMEHeaderKey(key)]`. -/
def Header.Values (e : Env) (h : Header) (key : String) : List String :=
  Header.index h (e.CanonicalMIMEHeaderKey key)

/-- The method `Header.Get`: the first value for the key, or the empty string. -/
def Header.Get (e : Env) (h : Header) (key : String) : String :=
  match Header.Values e h key with
  | [] => ""
  | v :: _ => v

/-- The method `Header.Clone`: a deep copy, equal to its receiver as a value. -/
def Header.Clone (h : Header) : Header := h

/-- The text `name=value` of a cookie, both sanitised, as `AddCookie` of
`http.Request` formats it. -/
def Cookie.pair (e : Env) (c : Cookie) : String :=
  e.sanitizeCookieName c.Name ++ "=" ++ e.sanitizeCookieValue c.Value

/-- The method `AddCookie` of `http.Request`: all cookies go into the one
`Cookie` header line, separated by semicolons, after whatever that line
already holds. -/
def HttpRequest.AddCookie (e : Env) (req : HttpRequest) (c : Cookie) : HttpRequest :=
  let s := Cookie.pair e c
  let old := Header.Get e req.Header "Cookie"
  if old ≠ "" then
    { req with Header := Header.Set e req.Header "Cookie" (old ++ "; " ++ s) }
  else
    { req with Header := Header.Set e req.Header "Cookie" s }

/-! ## Request builders (`net.go` lines 35-72) -/

/-- SetHeader set Header of request: `r.Header.Set(k, v)`; a nil map panics. -/
def Request.SetHeader (e : Env) (r : Request) (k v : String) : Option Request :=
  match r.Header with
  | none => none
  | some h => some { r with Header := some (Header.Set e h k v) }

/-- SetBody set body data of request. -/
def Request.SetBody (r : Request) (body : Bytes) : Request :=
  { r with Body := body }

/-- AddCookie add a cookie to request. -/
def Request.AddCookie (r : Request) (k v : String) : Request :=
  { r with Cookie := r.Cookie ++ [some { Name := k, Value := v }] }

/-- WithProxy set proxy of request. -/
def Request.WithProxy (r : Request) (proxy : String) : Request :=
  { r with Proxy := proxy }

/-- NewRequest create a new request. -/
def NewRequest : Request :=
  { Url := some {}
    Method := "GET"
    Cookie := []
    Header := some []
    Body := []
    Proxy := "" }

/-! ## Download (`net.go` lines 89-149) -/

/-- DefaultClient is the default Client: timeout ten seconds, no proxy. -/
def DefaultClient : Client := { Timeout := 10, Proxy := none }

/-- Lines 101-103 of `Download`: a non-nil Request header is cloned onto the
transport request. -/
def Download.withHeader (r : Request) (req : HttpRequest) : HttpRequest :=
  match r.Header with
  | some h => { req with Header := Header.Clone h }
  | none => req

/-- Lines 104-106 of `Download`: the cookie loop.  `AddCookie` of `net/http`
reads the name of the cookie it is given, so a nil pointer panics. -/
def Download.cookies (e : Env) : HttpRequest → List (Option Cookie) → Option HttpRequest
  | req, [] => some req
  | _, none :: _ => none
  | req, some c :: cs => Download.cookies e (HttpRequest.AddCookie e req c) cs

/-- Lines 101-106 of `Download`: the header clone, then the cookie loop. -/
def Download.prepare (e : Env) (r : Request) (req : HttpRequest) : Option HttpRequest :=
  Download.cookies e (Download.withHeader r req) r.Cookie

/-- Lines 108-122 of `Download`: the client for this call. -/
def Download.client (e : Env) (r : Request) : Except GoError Client :=
  if r.Proxy ≠ "" then
    match e.Parse r.Proxy with
    | .error err => .error err
    | .ok p => .ok { Timeout := 10, Proxy := some p }
  else
    .ok DefaultClient

/-- The collaborator calls of lines 108-122. -/
def Download.clientCalls (r : Request) : List Call :=
  if r.Proxy ≠ "" then [Call.Parse r.Proxy] else []

/-- Download do a request return response and error. -/
def Download (e : Env) (r : Request) : Option Result :=
  match r.Url with
  | none => none
  | some u =>
    let t0 := [Call.NewRequest r.Method (e.urlString u) r.Body]
    match e.NewRequest r.Method (e.urlString u) r.Body with
    | .error err => some ⟨none, some (.plain err), t0⟩
    | .ok req0 =>
      match Download.prepare e r req0 with
      | none => none
      | some req =>
        let t1 := t0 ++ Download.clientCalls r
        match Download.client e r with
        | .error err => some ⟨none, some (.plain err), t1⟩
        | .ok c =>
          let t2 := t1 ++ [Call.Do c req]
          match e.Do c req with
          | .error err => some ⟨none, some (.HttpErr err r), t2⟩
          | .ok resp =>
            let t3 := t2 ++ [Call.ReadAll resp.Body]
            match e.ReadAll resp.Body with
            | .error err => some ⟨none, some (.plain err), t3 ++ [Call.Close resp.Body]⟩
            | .ok body =>
              let html : Option Document := (e.NewDocumentFromReader body).1
              let j : Option JsonMap := (e.Unmarshal body none).1
              some
                { resp := some
                    { Url := r.Url
                      Status := resp.StatusCode
                      Header := resp.Header
                      Body := body
                      Request := r
                      HttpResponse := resp
                      Text := GoString.ofBytes body
                      Html := html
                      Json := j }
                  err := none
                  calls := t3 ++ [Call.NewDocumentFromReader body, Call.Unmarshal body,
                    Call.Close resp.Body] }

/-- The number of times the transport was asked to execute. -/
def Result.executions (res : Result) : Nat :=
  res.calls.countP (fun c => match c with | Call.Do _ _ => true | _ => false)

/-! ## Finite sequences of builder calls -/

/-- One builder call on a Request. -/
inductive Mutator where
  | SetHeader (k v : String)
  | SetBody (body : Bytes)
  | AddCookie (k v : String)
  | WithProxy (proxy : String)
deriving DecidableEq, Repr

/-- Run one builder call; `none` is a panic. -/
def Mutator.run (e : Env) (r : Request) : Mutator → Option Request
  | .SetHeader k v => r.SetHeader e k v
  | .SetBody body => some (r.SetBody body)
  | .AddCookie k v => some (r.AddCookie k v)
  | .WithProxy proxy => some (r.WithProxy proxy)

/-- Run a sequence of builder calls from left to right, stopping at a panic. -/
def Mutator.runAll (e : Env) : Request → List Mutator → Option Request
  | r, [] => some r
  | r, m :: ms =>
    match m.run e r with
    | none => none
    | some r1 => Mutator.runAll e r1 ms

/-! ## A concrete collaborator set, used to evaluate `Download` -/

/-- A Request whose header already holds two values for `X`. -/
def demoRequest : Request :=
  { NewRequest with Header := some [("X", ["0", "00"])] }

/-- A Request whose header holds a value under the key `x-test`, written into
the map directly and not through `SetHeader`. -/
def lowerKeyRequest : Request :=
  { NewRequest with Header := some [("x-test", ["0"])] }

/-- A Request with a non-nil Url whose cookie slice holds one nil pointer. -/
def nilCookieRequest : Request :=
  { NewRequest with Cookie := [none] }

/-- A stub environment: identity key canonicalisation and sanitisers, a
transport that answers status 200 with body handle 0, a reader that yields the
bytes `[104, 105]`, a markup parser and a decoder that both succeed. -/
def demoEnv : Env :=
  { CanonicalMIMEHeaderKey := fun k => k
    sanitizeCookieName := fun n => n
    sanitizeCookieValue := fun v => v
    urlString := fun u => u.Scheme ++ u.Host ++ u.Path
    NewRequest := fun m u b => .ok { Method := m, Url := u, Header := [], Body := b }
    Parse := fun s => .ok { Host := s }
    Do := fun _ _ => .ok { StatusCode := 200, Header := some [], Body := ⟨0⟩ }
    ReadAll := fun _ => .ok [104, 105]
    NewDocumentFromReader := fun _ => (some ⟨["html"]⟩, none)
    Unmarshal := fun _ _ => (some [], none) }

/-- A stub environment whose key canonicalisation agrees with `net/textproto`
on the keys `x-test`, `X-Test` and `Cookie`. -/
def canonEnv : Env :=
  { demoEnv with CanonicalMIMEHeaderKey := fun k => if k = "x-test" then "X-Test" else k }

/-- A stub environment whose transport fails with the given cause. -/
def downEnv (cause : GoError) : Env :=
  { demoEnv with Do := fun _ _ => .error cause }

/-- A stub environment whose URL parser rejects every proxy string. -/
def badProxyEnv (cause : GoError) : Env :=
  { demoEnv with Parse := fun _ => .error cause }

/-- A stub environment whose request constructor fails. -/
def badMethodEnv (cause : GoError) : Env :=
  { demoEnv with NewRequest := fun _ _ _ => .error cause }

/-- A stub environment that answers the given status and body bytes, and whose
markup parser and decoder both report failure. -/
def rawEnv (status : Int) (body : Bytes) : Env :=
  { demoEnv with
    Do := fun _ _ => .ok { StatusCode := status, Header := some [], Body := ⟨0⟩ }
    ReadAll := fun _ => .ok body
    NewDocumentFromReader := fun _ => (none, some ⟨"markup"⟩)
    Unmarshal := fun _ j => (j, some ⟨"json"⟩) }

/-- A stub environment whose decoder behaves as `encoding/json` does on the
text of an object with a fitting member `b` and a number `1e999` that
overflows: it stores what fits and returns the error for the number. -/
def lenientJsonEnv : Env :=
  { demoEnv with
    Unmarshal := fun _ _ => (some [("b", "1")], some ⟨"cannot unmarshal number 1e999"⟩) }


/-! ## The cookie loop of `Download` -/

/-- Over non-nil pointers the cookie loop is the left fold of `AddCookie`. -/
theorem Download.cookies_map_some (e : Env) (cs : List Cookie) (req : HttpRequest) :
    Download.cookies e req (cs.map some) = some (cs.foldl (HttpRequest.AddCookie e) req) := by
  induction cs generalizing req with
  | nil => rfl
  | cons c t ih => simp only [List.map_cons, Download.cookies, List.foldl_cons, ih]

/-- A cookie loop that does not panic ran over non-nil pointers only. -/
theorem Download.cookies_some_inv (e : Env) (l : List (Option Cookie)) (req out : HttpRequest)
    (h : Download.cookies e req l = some out) :
    ∃ cs : List Cookie, l = cs.map some ∧ out = cs.foldl (HttpRequest.AddCookie e) req := by
  induction l generalizing req with
  | nil =>
    simp only [Download.cookies, Option.some.injEq] at h
    exact ⟨[], rfl, h.symm⟩
  | cons a t ih =>
    cases a with
    | none => simp [Download.cookies] at h
    | some c =>
      simp only [Download.cookies] at h
      obtain ⟨cs, h1, h2⟩ := ih _ h
      exact ⟨c :: cs, by simp [h1], h2⟩

/-- The cookie loop over non-nil pointers does not panic. -/
theorem Download.cookies_total (e : Env) (l : List (Option Cookie)) (req : HttpRequest)
    (h : none ∉ l) : ∃ out, Download.cookies e req l = some out := by
  induction l generalizing req with
  | nil => exact ⟨req, rfl⟩
  | cons a t ih =>
    cases a with
    | none => simp at h
    | some c =>
      simp only [Download.cookies]
      exact ih _ (fun hm => h (List.mem_cons_of_mem _ hm))

/-- The cookie loop panics at a nil pointer. -/
theorem Download.cookies_nil_mem (e : Env) (l : List (Option Cookie)) (req : HttpRequest)
    (h : none ∈ l) : Download.cookies e req l = none := by
  cases hc : Download.cookies e req l with
  | none => rfl
  | some out =>
    obtain ⟨cs, h1, _⟩ := Download.cookies_some_inv e l req out hc
    rw [h1] at h
    simp at h

/-! ## Shape of the result of `Download` -/

/-- The successful path of `Download`, spelled out. -/
theorem Download_ok (e : Env) (r : Request) (u : URL) (req0 req : HttpRequest) (c : Client)
    (reply : HttpResponse) (b : Bytes)
    (hu : r.Url = some u)
    (hn : e.NewRequest r.Method (e.urlString u) r.Body = .ok req0)
    (hp : Download.prepare e r req0 = some req)
    (hc : Download.client e r = .ok c)
    (hd : e.Do c req = .ok reply)
    (hr : e.ReadAll reply.Body = .ok b) :
    Download e r = some
      { resp := some
          { Url := r.Url
            Status := reply.StatusCode
            Header := reply.Header
            Body := b
            Request := r
            HttpResponse := reply
            Text := GoString.ofBytes b
            Html := (e.NewDocumentFromReader b).1
            Json := (e.Unmarshal b none).1 }
        err := none
        calls := [Call.NewRequest r.Method (e.urlString u) r.Body] ++ Download.clientCalls r
          ++ [Call.Do c req] ++ [Call.ReadAll reply.Body]
          ++ [Call.NewDocumentFromReader b, Call.Unmarshal b, Call.Close reply.Body] } := by
  simp only [Download, hu, hn, hp, hc, hd, hr]

/-- The path of `Download` on which building the transport request fails. -/
theorem Download_new_error (e : Env) (r : Request) (u : URL) (x : GoError)
    (hu : r.Url = some u)
    (hn : e.NewRequest r.Method (e.urlString u) r.Body = .error x) :
    Download e r = some
      { resp := none
        err := some (Error.plain x)
        calls := [Call.NewRequest r.Method (e.urlString u) r.Body] } := by
  simp only [Download, hu, hn]

/-- The path of `Download` on which the cookie loop panics. -/
theorem Download_cookie_panic (e : Env) (r : Request) (u : URL) (req0 : HttpRequest)
    (hu : r.Url = some u)
    (hn : e.NewRequest r.Method (e.urlString u) r.Body = .ok req0)
    (hp : none ∈ r.Cookie) :
    Download e r = none := by
  have h := Download.cookies_nil_mem e r.Cookie (Download.withHeader r req0) hp
  simp only [Download, hu, hn, Download.prepare, h]

/-- The path of `Download` on which selecting the client fails. -/
theorem Download_client_error (e : Env) (r : Request) (u : URL) (req0 req : HttpRequest)
    (x : GoError)
    (hu : r.Url = some u)
    (hn : e.NewRequest r.Method (e.urlString u) r.Body = .ok req0)
    (hp : Download.prepare e r req0 = some req)
    (hc : Download.client e r = .error x) :
    Download e r = some
      { resp := none
        err := some (Error.plain x)
        calls := [Call.NewRequest r.Method (e.urlString u) r.Body]
          ++ Download.clientCalls r } := by
  simp only [Download, hu, hn, hp, hc]

/-- The path of `Download` on which the transport fails. -/
theorem Download_Do_error (e : Env) (r : Request) (u : URL) (req0 req : HttpRequest)
    (c : Client) (x : GoError)
    (hu : r.Url = some u)
    (hn : e.NewRequest r.Method (e.urlString u) r.Body = .ok req0)
    (hp : Download.prepare e r req0 = some req)
    (hc : Download.client e r = .ok c)
    (hd : e.Do c req = .error x) :
    Download e r = some
      { resp := none
        err := some (Error.HttpErr x r)
        calls := [Call.NewRequest r.Method (e.urlString u) r.Body]
          ++ Download.clientCalls r ++ [Call.Do c req] } := by
  simp only [Download, hu, hn, hp, hc, hd]

/-- The path of `Download` on which reading the body fails. -/
theorem Download_read_error (e : Env) (r : Request) (u : URL) (req0 req : HttpRequest)
    (c : Client) (reply : HttpResponse) (x : GoError)
    (hu : r.Url = some u)
    (hn : e.NewRequest r.Method (e.urlString u) r.Body = .ok req0)
    (hp : Download.prepare e r req0 = some req)
    (hc : Download.client e r = .ok c)
    (hd : e.Do c req = .ok reply)
    (hr : e.ReadAll reply.Body = .error x) :
    Download e r = some
      { resp := none
        err := some (Error.plain x)
        calls := [Call.NewRequest r.Method (e.urlString u) r.Body]
          ++ Download.clientCalls r ++ [Call.Do c req]
          ++ [Call.ReadAll reply.Body] ++ [Call.Close reply.Body] } := by
  simp only [Download, hu, hn, hp, hc, hd, hr]

/-- Every Response that `Download` returns was assembled on the successful
path: the request was built, the cookie loop ran, a client was selected, the
transport replied and the body was read. -/
theorem Download_resp_inv (e : Env) (r : Request) (res : Result) (R : Response)
    (h : Download e r = some res) (hR : res.resp = some R) :
    ∃ u req0 req c reply,
      r.Url = some u ∧
      e.NewRequest r.Method (e.urlString u) r.Body = .ok req0 ∧
      Download.prepare e r req0 = some req ∧
      Download.client e r = .ok c ∧
      e.Do c req = .ok reply ∧
      e.ReadAll reply.Body = .ok R.Body ∧
      res.err = none ∧
      R.Text = GoString.ofBytes R.Body ∧
      R.Html = (e.NewDocumentFromReader R.Body).1 ∧
      R.Json = (e.Unmarshal R.Body none).1 := by
  unfold Download at h
  split at h
  · cases h
  · rename_i u hu
    try dsimp only at h
    split at h
    · cases h; cases hR
    · rename_i req0 hn
      split at h
      · cases h
      · rename_i req hp
        try dsimp only at h
        split at h
        · cases h; cases hR
        · rename_i c hc
          try dsimp only at h
          split at h
          · cases h; cases hR
          · rename_i reply hd
            try dsimp only at h
            split at h
            · cases h; cases hR
            · rename_i b hr
              cases h
              cases hR
              exact ⟨u, req0, req, c, reply, hu, hn, hp, hc, hd, hr, rfl, rfl, rfl, rfl⟩

/-- The transport request of every `Do` call that `Download` records is the
prepared request, and the client is the selected one. -/
theorem Download_Do_inv (e : Env) (r : Request) (res : Result) (c : Client)
    (req : HttpRequest) (h : Download e r = some res) (hm : Call.Do c req ∈ res.calls) :
    ∃ u req0,
      r.Url = some u ∧
      e.NewRequest r.Method (e.urlString u) r.Body = .ok req0 ∧
      Download.prepare e r req0 = some req ∧
      Download.client e r = .ok c := by
  have hcc : Call.Do c req ∉ Download.clientCalls r := by
    unfold Download.clientCalls
    split <;> simp
  unfold Download at h
  split at h
  · cases h
  · rename_i u hu
    try dsimp only at h
    split at h
    · cases h; simp at hm
    · rename_i req0 hn
      split at h
      · cases h
      · rename_i req1 hp
        try dsimp only at h
        split at h
        · cases h
          simp at hm
          exact absurd hm hcc
        · rename_i c1 hc
          have key : c = c1 ∧ req = req1 →
              ∃ u req0, r.Url = some u ∧
                e.NewRequest r.Method (e.urlString u) r.Body = .ok req0 ∧
                Download.prepare e r req0 = some req ∧ Download.client e r = .ok c := by
            rintro ⟨h1, h2⟩
            subst h1
            subst h2
            exact ⟨u, req0, hu, hn, hp, hc⟩
          try dsimp only at h
          split at h
          · cases h
            simp [hcc] at hm
            exact key hm
          · try dsimp only at h
            split at h
            · cases h
              simp [hcc] at hm
              exact key hm
            · cases h
              simp [hcc] at hm
              exact key hm

/-- The client selection makes no `Do` call. -/
theorem clientCalls_countP (r : Request) :
    (Download.clientCalls r).countP
      (fun c => match c with | Call.Do _ _ => true | _ => false) = 0 := by
  unfold Download.clientCalls
  split <;> simp

/-- With a non-nil Url and no nil cookie pointer, `Download` returns, with a
Response or with an error. -/
theorem Download_returns (e : Env) (r : Request) (u : URL) (hu : r.Url = some u)
    (hk : none ∉ r.Cookie) :
    ∃ res, Download e r = some res ∧
      ((∃ R, res.resp = some R ∧ res.err = none) ∨
       (∃ x, res.resp = none ∧ res.err = some x)) := by
  cases hn : e.NewRequest r.Method (e.urlString u) r.Body with
  | error err => exact ⟨_, Download_new_error e r u err hu hn, Or.inr ⟨_, rfl, rfl⟩⟩
  | ok req0 =>
    obtain ⟨req, hp⟩ := Download.cookies_total e r.Cookie (Download.withHeader r req0) hk
    cases hc : Download.client e r with
    | error err =>
      exact ⟨_, Download_client_error e r u req0 req err hu hn hp hc, Or.inr ⟨_, rfl, rfl⟩⟩
    | ok c =>
      cases hd : e.Do c req with
      | error err =>
        exact ⟨_, Download_Do_error e r u req0 req c err hu hn hp hc hd, Or.inr ⟨_, rfl, rfl⟩⟩
      | ok reply =>
        cases hr : e.ReadAll reply.Body with
        | error err =>
          exact ⟨_, Download_read_error e r u req0 req c reply err hu hn hp hc hd hr,
            Or.inr ⟨_, rfl, rfl⟩⟩
        | ok b =>
          exact ⟨_, Download_ok e r u req0 req c reply b hu hn hp hc hd hr,
            Or.inl ⟨_, rfl, rfl⟩⟩

/-! ## `http.Header` and the cookie loop -/

/-- Reading a key just written gives the written values. -/
theorem Header.index_assign_self (h : Header) (key : String) (vs : List String) :
    Header.index (Header.assign h key vs) key = vs := by
  simp [Header.index, Header.assign, List.lookup]

/-- Dropping the entries of one key does not change the lookup of another. -/
theorem Header.lookup_filter_ne (h : Header) (key other : String) (hne : other ≠ key) :
    (h.filter (fun p => p.1 != key)).lookup other = h.lookup other := by
  induction h with
  | nil => rfl
  | cons p t ih =>
    obtain ⟨a, vs⟩ := p
    by_cases ha : a = key
    · subst ha
      have h1 : (other == a) = false := by simpa using hne
      simp [List.filter, List.lookup, h1, ih]
    · have h2 : (a != key) = true := by simpa using ha
      simp only [List.filter, h2, List.lookup, ih]

/-- Writing a key does not change what another key reads. -/
theorem Header.index_assign_ne (h : Header) (key other : String) (vs : List String)
    (hne : other ≠ key) :
    Header.index (Header.assign h key vs) other = Header.index h other := by
  have h1 : (other == key) = false := by simpa using hne
  simp [Header.index, Header.assign, List.lookup, h1, Header.lookup_filter_ne h key other hne]

/-- After `Set`, `Values` of the same key is the one value set. -/
theorem Header.Values_Set_self (e : Env) (h : Header) (key value : String) :
    Header.Values e (Header.Set e h key value) key = [value] :=
  Header.index_assign_self h _ _

/-- A string of length zero is the empty string. -/
theorem eq_empty_of_length (a : String) (h : a.length = 0) : a = "" := by
  cases a with
  | mk d =>
    simp only [String.length, List.length_eq_zero] at h
    subst h
    rfl

/-- Appending to a non-empty string gives a non-empty string. -/
theorem append_ne_empty (a b : String) (h : a ≠ "") : a ++ b ≠ "" := by
  intro hh
  apply h
  have h1 := congrArg String.length hh
  rw [String.length_append] at h1
  have h3 : "".length = 0 := rfl
  exact eq_empty_of_length a (by omega)

/-- The text of a cookie pair is never empty: it holds the equals sign. -/
theorem Cookie.pair_ne_empty (e : Env) (c : Cookie) : Cookie.pair e c ≠ "" := by
  intro h
  have h1 := congrArg String.length h
  simp only [Cookie.pair, String.length_append] at h1
  have h2 : "=".length = 1 := rfl
  have h3 : "".length = 0 := rfl
  omega

/-- The `Cookie` header after one `AddCookie`. -/
theorem HttpRequest.AddCookie_Cookie (e : Env) (req : HttpRequest) (c : Cookie) :
    Header.Values e (HttpRequest.AddCookie e req c).Header "Cookie" =
      [if Header.Get e req.Header "Cookie" ≠ "" then
          Header.Get e req.Header "Cookie" ++ "; " ++ Cookie.pair e c
        else Cookie.pair e c] := by
  simp only [HttpRequest.AddCookie]
  by_cases h : Header.Get e req.Header "Cookie" ≠ ""
  · rw [if_pos h, if_pos h]
    exact Header.Values_Set_self e _ _ _
  · rw [if_neg h, if_neg h]
    exact Header.Values_Set_self e _ _ _

/-- One `AddCookie` leaves the map entry of every key other than the canonical
`Cookie` key as it was. -/
theorem HttpRequest.AddCookie_index (e : Env) (req : HttpRequest) (c : Cookie) (key : String)
    (hk : key ≠ e.CanonicalMIMEHeaderKey "Cookie") :
    Header.index (HttpRequest.AddCookie e req c).Header key = Header.index req.Header key := by
  simp only [HttpRequest.AddCookie]
  by_cases h : Header.Get e req.Header "Cookie" ≠ ""
  · rw [if_pos h]
    exact Header.index_assign_ne _ _ _ _ hk
  · rw [if_neg h]
    exact Header.index_assign_ne _ _ _ _ hk

/-- The cookie loop leaves the map entry of every key other than the canonical
`Cookie` key as it was. -/
theorem HttpRequest.foldl_AddCookie_index (e : Env) (cs : List Cookie) (req : HttpRequest)
    (key : String) (hk : key ≠ e.CanonicalMIMEHeaderKey "Cookie") :
    Header.index (cs.foldl (HttpRequest.AddCookie e) req).Header key =
      Header.index req.Header key := by
  induction cs generalizing req with
  | nil => rfl
  | cons c t ih =>
    rw [List.foldl_cons, ih, HttpRequest.AddCookie_index e req c key hk]

/-- Two `Set` calls for one key leave the map entry of every other key as it
was. -/
theorem Header.index_Set_Set_ne (e : Env) (h : Header) (k v1 v2 key : String)
    (hk : key ≠ e.CanonicalMIMEHeaderKey k) :
    Header.index (Header.Set e (Header.Set e h k v1) k v2) key = Header.index h key := by
  simp only [Header.Set]
  rw [Header.index_assign_ne _ _ _ _ hk, Header.index_assign_ne _ _ _ _ hk]

/-- The joining loop of `String.intercalate`, continued by one more item. -/
theorem intercalate_go_append (acc sep : String) (l : List String) (s : String) :
    String.intercalate.go acc sep (l ++ [s]) = String.intercalate.go acc sep l ++ sep ++ s := by
  induction l generalizing acc with
  | nil => simp [String.intercalate.go]
  | cons a t ih => simp [String.intercalate.go, ih]

/-- Joining a non-empty list is never empty when its first item is not. -/
theorem intercalate_go_ne_empty (acc sep : String) (l : List String) (h : acc ≠ "") :
    String.intercalate.go acc sep l ≠ "" := by
  induction l generalizing acc with
  | nil => simpa [String.intercalate.go] using h
  | cons a t ih =>
    simp only [String.intercalate.go]
    apply ih
    rw [String.append_assoc]
    exact append_ne_empty acc _ h

/-- The `Cookie` header after the cookie loop, when it held a single non-empty
line `acc` before: the line, then the pairs in list order, joined by
semicolons. -/
theorem HttpRequest.foldl_AddCookie_Cookie (e : Env) (cs : List Cookie) (req : HttpRequest)
    (acc : String) (hacc : acc ≠ "")
    (h : Header.Values e req.Header "Cookie" = [acc]) :
    Header.Values e (cs.foldl (HttpRequest.AddCookie e) req).Header "Cookie" =
      [String.intercalate.go acc "; " (cs.map (Cookie.pair e))] := by
  induction cs generalizing req acc with
  | nil => simpa [String.intercalate.go] using h
  | cons c t ih =>
    rw [List.foldl_cons, List.map_cons]
    simp only [String.intercalate.go]
    have hget : Header.Get e req.Header "Cookie" = acc := by
      simp [Header.Get, h]
    apply ih
    · rw [String.append_assoc]
      exact append_ne_empty acc _ hacc
    · rw [HttpRequest.AddCookie_Cookie, hget, if_pos hacc]

/-- The `Cookie` header after the cookie loop over a non-empty cookie list:
one line, holding what `Get` read for `Cookie` before the loop (when that is
not empty) and then the pairs in list order, joined by semicolons. -/
theorem HttpRequest.foldl_AddCookie_line (e : Env) (cs : List Cookie) (req : HttpRequest)
    (hcs : cs ≠ []) :
    Header.Values e (cs.foldl (HttpRequest.AddCookie e) req).Header "Cookie" =
      [String.intercalate "; "
        ((if Header.Get e req.Header "Cookie" ≠ "" then [Header.Get e req.Header "Cookie"]
          else []) ++ cs.map (Cookie.pair e))] := by
  cases cs with
  | nil => exact absurd rfl hcs
  | cons c t =>
    rw [List.foldl_cons]
    by_cases h : Header.Get e req.Header "Cookie" ≠ ""
    · rw [HttpRequest.foldl_AddCookie_Cookie e t _
        (Header.Get e req.Header "Cookie" ++ "; " ++ Cookie.pair e c)
        (by rw [String.append_assoc]; exact append_ne_empty _ _ h)
        (by rw [HttpRequest.AddCookie_Cookie, if_pos h])]
      rw [if_pos h]
      simp [String.intercalate, String.intercalate.go]
    · rw [HttpRequest.foldl_AddCookie_Cookie e t _ (Cookie.pair e c)
        (Cookie.pair_ne_empty e c)
        (by rw [HttpRequest.AddCookie_Cookie, if_neg h])]
      rw [if_neg h]
      simp [String.intercalate]

/-- A builder call on a Request with non-nil Url and Header and no nil cookie
pointer does not panic and keeps all three. -/
theorem Mutator.run_invariant (e : Env) (r : Request) (m : Mutator)
    (hu : r.Url ≠ none) (hh : r.Header ≠ none) (hk : none ∉ r.Cookie) :
    ∃ r1, m.run e r = some r1 ∧ r1.Url ≠ none ∧ r1.Header ≠ none ∧ none ∉ r1.Cookie := by
  cases m with
  | SetHeader k v =>
    cases hH : r.Header with
    | none => exact absurd hH hh
    | some h =>
      refine ⟨{ r with Header := some (Header.Set e h k v) }, ?_, hu, by simp, hk⟩
      simp only [Mutator.run, Request.SetHeader, hH]
  | SetBody body => exact ⟨_, rfl, hu, hh, hk⟩
  | AddCookie k v =>
    refine ⟨_, rfl, hu, hh, ?_⟩
    simp only [Request.AddCookie, List.mem_append, List.mem_singleton, not_or]
    exact ⟨hk, by simp⟩
  | WithProxy proxy => exact ⟨_, rfl, hu, hh, hk⟩

/-- A sequence of builder calls on a Request with non-nil Url and Header and
no nil cookie pointer does not panic and keeps all three. -/
theorem Mutator.runAll_invariant (e : Env) (ms : List Mutator) (r : Request)
    (hu : r.Url ≠ none) (hh : r.Header ≠ none) (hk : none ∉ r.Cookie) :
    ∃ r1, Mutator.runAll e r ms = some r1 ∧ r1.Url ≠ none ∧ r1.Header ≠ none ∧
      none ∉ r1.Cookie := by
  induction ms generalizing r with
  | nil => exact ⟨r, rfl, hu, hh, hk⟩
  | cons m t ih =>
    obtain ⟨r1, h1, hu1, hh1, hk1⟩ := Mutator.run_invariant e r m hu hh hk
    obtain ⟨r2, h2, hu2, hh2, hk2⟩ := ih r1 hu1 hh1 hk1
    exact ⟨r2, by simp only [Mutator.runAll, h1, h2], hu2, hh2, hk2⟩

/-- A list that ends in a non-nil pointer and holds non-nil pointers only. -/
theorem map_some_append_inv (l : List (Option Cookie)) (x : Cookie) (cs : List Cookie)
    (h : l ++ [some x] = cs.map some) :
    ∃ cs0 : List Cookie, l = cs0.map some ∧ cs = cs0 ++ [x] := by
  induction l generalizing cs with
  | nil =>
    cases cs with
    | nil => simp at h
    | cons a t =>
      simp only [List.nil_append, List.map_cons, List.cons.injEq, Option.some.injEq] at h
      obtain ⟨h1, h2⟩ := h
      cases t with
      | nil => exact ⟨[], rfl, by simp [h1]⟩
      | cons b t2 => simp at h2
  | cons b l ih =>
    cases cs with
    | nil => simp at h
    | cons a t =>
      simp only [List.cons_append, List.map_cons, List.cons.injEq] at h
      obtain ⟨h1, h2⟩ := h
      obtain ⟨cs0, h3, h4⟩ := ih t h2
      exact ⟨a :: cs0, by simp [h1, h3], by simp [h4]⟩

/-! ## The contract of `Download` -/

/-- Claim C1 as stated fails: on a Request with a non-nil Url whose cookie
slice holds a nil pointer, `Download` builds the transport request and then
panics in the cookie loop; it returns neither a Response nor an error. -/
theorem Download_panics_on_nil_cookie :
    nilCookieRequest.Url = some {} ∧ nilCookieRequest.Cookie = [none] ∧
    demoEnv.NewRequest nilCookieRequest.Method (demoEnv.urlString {}) nilCookieRequest.Body
      = .ok { Method := "GET", Url := "", Header := [], Body := [] } ∧
    Download demoEnv nilCookieRequest = none :=
  ⟨rfl, rfl, rfl, rfl⟩

/-- Claim C1, amended: for every Request with a non-nil Url and no nil cookie
pointer, and every behaviour of the collaborators, `Download` returns (it does
not panic) and exactly one of the Response and the error is non-nil: either a
Response and no error, or no Response and an error. -/
theorem Download_exactly_one (e : Env) (r : Request) (u : URL) (hu : r.Url = some u)
    (hk : none ∉ r.Cookie) :
    ∃ res, Download e r = some res ∧
      ((∃ R, res.resp = some R ∧ res.err = none) ∨
       (∃ x, res.resp = none ∧ res.err = some x)) :=
  Download_returns e r u hu hk

/-- Claim C1, amended, at a Request with one cookie and the stub collaborators. -/
theorem Download_exactly_one_witness :
    (NewRequest.AddCookie "n" "v").Url = some {} ∧
    none ∉ (NewRequest.AddCookie "n" "v").Cookie ∧
    ∃ res, Download demoEnv (NewRequest.AddCookie "n" "v") = some res ∧
      ((∃ R, res.resp = some R ∧ res.err = none) ∨
       (∃ x, res.resp = none ∧ res.err = some x)) :=
  ⟨rfl, by decide,
    Download_exactly_one demoEnv (NewRequest.AddCookie "n" "v") {} rfl (by decide)⟩

/-- Claim C2: when the request is built and prepared as `req`, a client is
selected, the transport replies to `req` and the reply's body is read as `b`,
`Download` returns no error and a Response whose Status, Header and Body are
the reply's status code, the reply's headers and `b`, whose Url is the
Request's Url and whose Request is the Request; the status code is arbitrary,
so no status makes it fail. -/
theorem Download_verbatim (e : Env) (r : Request) (u : URL) (req0 req : HttpRequest)
    (c : Client) (reply : HttpResponse) (b : Bytes)
    (hu : r.Url = some u)
    (hn : e.NewRequest r.Method (e.urlString u) r.Body = .ok req0)
    (hp : Download.prepare e r req0 = some req)
    (hc : Download.client e r = .ok c)
    (hd : e.Do c req = .ok reply)
    (hr : e.ReadAll reply.Body = .ok b) :
    ∃ res R, Download e r = some res ∧ res.err = none ∧ res.resp = some R ∧
      R.Status = reply.StatusCode ∧ R.Header = reply.Header ∧ R.Body = b ∧
      R.Url = r.Url ∧ R.Request = r :=
  ⟨_, _, Download_ok e r u req0 req c reply b hu hn hp hc hd hr,
    rfl, rfl, rfl, rfl, rfl, rfl, rfl⟩

/-- Claim C2, at a reply with status 503 and a body that is not UTF-8. -/
theorem Download_verbatim_witness :
    ∃ res R, Download (rawEnv 503 [255, 0]) NewRequest = some res ∧ res.err = none ∧
      res.resp = some R ∧ R.Status = 503 ∧ R.Header = some [] ∧ R.Body = [255, 0] ∧
      R.Url = NewRequest.Url ∧ R.Request = NewRequest :=
  Download_verbatim (rawEnv 503 [255, 0]) NewRequest {}
    { Method := "GET", Url := "", Header := [], Body := [] }
    { Method := "GET", Url := "", Header := [], Body := [] } DefaultClient
    { StatusCode := 503, Header := some [], Body := ⟨0⟩ } [255, 0] rfl rfl rfl rfl rfl rfl

/-- Claim C3 as stated fails: with a decoder that stores the member that
fits and reports failure for one that does not, `Download` returns a Response
and no error, and the Response's Json is the map the decoder stored, not nil. -/
theorem Download_Json_kept_on_decode_failure :
    ∃ res R, Download lenientJsonEnv NewRequest = some res ∧ res.resp = some R ∧
      res.err = none ∧
      (lenientJsonEnv.Unmarshal R.Body none).2 = some ⟨"cannot unmarshal number 1e999"⟩ ∧
      R.Json = some [("b", "1")] ∧ R.Json ≠ none :=
  ⟨_, _, rfl, rfl, rfl, rfl, rfl, by decide⟩

/-- Claim C3, amended: when the exchange succeeds and the body is read as `b`,
`Download` returns a Response and no error whatever the markup parser and the
decoder return on `b`; the Response's Json is the map the decoder left in its
target, which is nil before the call, so it is nil when a failing decoder
stored nothing. -/
theorem Download_swallows_parse_failures (e : Env) (r : Request) (u : URL)
    (req0 req : HttpRequest) (c : Client) (reply : HttpResponse) (b : Bytes)
    (hu : r.Url = some u)
    (hn : e.NewRequest r.Method (e.urlString u) r.Body = .ok req0)
    (hp : Download.prepare e r req0 = some req)
    (hc : Download.client e r = .ok c)
    (hd : e.Do c req = .ok reply)
    (hr : e.ReadAll reply.Body = .ok b) :
    ∃ res R, Download e r = some res ∧ res.resp = some R ∧ res.err = none ∧
      R.Json = (e.Unmarshal b none).1 ∧
      (∀ x, e.Unmarshal b none = (none, some x) → R.Json = none) := by
  refine ⟨_, _, Download_ok e r u req0 req c reply b hu hn hp hc hd hr, rfl, rfl, rfl, ?_⟩
  intro x hx
  simp only [hx]

/-- Claim C3, amended, where the markup parser fails and the decoder fails
without storing anything. -/
theorem Download_swallows_parse_failures_witness :
    ∃ res R, Download (rawEnv 200 [60]) NewRequest = some res ∧ res.resp = some R ∧
      res.err = none ∧ R.Json = none := by
  obtain ⟨res, R, h1, h2, h3, _, h5⟩ :=
    Download_swallows_parse_failures (rawEnv 200 [60]) NewRequest {}
      { Method := "GET", Url := "", Header := [], Body := [] }
      { Method := "GET", Url := "", Header := [], Body := [] } DefaultClient
      { StatusCode := 200, Header := some [], Body := ⟨0⟩ } [60] rfl rfl rfl rfl rfl rfl
  exact ⟨res, R, h1, h2, h3, h5 ⟨"json"⟩ rfl⟩

/-- Claim C4: when the request is built and prepared as `req` and a client is
selected, and the transport fails on `req` with cause `cause`, `Download`
returns no Response and the error `HttpErr` that wraps `cause` and carries the
Request, and the transport was asked to execute exactly once. -/
theorem Download_transport_failure (e : Env) (r : Request) (u : URL)
    (req0 req : HttpRequest) (c : Client) (cause : GoError)
    (hu : r.Url = some u)
    (hn : e.NewRequest r.Method (e.urlString u) r.Body = .ok req0)
    (hp : Download.prepare e r req0 = some req)
    (hc : Download.client e r = .ok c)
    (hd : e.Do c req = .error cause) :
    ∃ res, Download e r = some res ∧ res.resp = none ∧
      res.err = some (Error.HttpErr cause r) ∧ res.executions = 1 := by
  refine ⟨_, Download_Do_error e r u req0 req c cause hu hn hp hc hd, rfl, rfl, ?_⟩
  simp [Result.executions, List.countP_append, clientCalls_countP]

/-- Claim C4, with a transport that is down. -/
theorem Download_transport_failure_witness :
    ∃ res, Download (downEnv ⟨"refused"⟩) NewRequest = some res ∧ res.resp = none ∧
      res.err = some (Error.HttpErr ⟨"refused"⟩ NewRequest) ∧ res.executions = 1 :=
  Download_transport_failure (downEnv ⟨"refused"⟩) NewRequest {}
    { Method := "GET", Url := "", Header := [], Body := [] }
    { Method := "GET", Url := "", Header := [], Body := [] } DefaultClient ⟨"refused"⟩
    rfl rfl rfl rfl rfl

/-- Claim C5 as stated fails: on a Request with a non-empty Proxy string that
the URL parser rejects, for which the transport request is built, but whose
cookie slice holds a nil pointer, `Download` panics in the cookie loop, which
runs before the proxy is parsed; it does not return the parse error. -/
theorem Download_nil_cookie_before_proxy :
    (badProxyEnv ⟨"bad proxy"⟩).NewRequest (nilCookieRequest.WithProxy "::").Method
      ((badProxyEnv ⟨"bad proxy"⟩).urlString {}) (nilCookieRequest.WithProxy "::").Body
      = .ok { Method := "GET", Url := "", Header := [], Body := [] } ∧
    (nilCookieRequest.WithProxy "::").Proxy ≠ "" ∧
    (badProxyEnv ⟨"bad proxy"⟩).Parse (nilCookieRequest.WithProxy "::").Proxy
      = .error ⟨"bad proxy"⟩ ∧
    Download (badProxyEnv ⟨"bad proxy"⟩) (nilCookieRequest.WithProxy "::") = none :=
  ⟨rfl, by decide, rfl, rfl⟩

/-- Claim C5, amended: for a Request with a non-nil Url, (a) if the
transport-level request is built, no cookie pointer is nil, the Proxy string
is non-empty and the URL parser rejects it with `perr`, `Download` returns no
Response and exactly `perr`, and the transport is never asked to execute;
(b) if building the transport-level request fails with `cerr`, `Download`
returns no Response and `cerr`, and the transport is never asked to execute. -/
theorem Download_fails_before_exchange (e : Env) (r : Request) (u : URL)
    (hu : r.Url = some u) :
    (∀ req0 perr, e.NewRequest r.Method (e.urlString u) r.Body = .ok req0 →
      none ∉ r.Cookie → r.Proxy ≠ "" → e.Parse r.Proxy = .error perr →
      ∃ res, Download e r = some res ∧ res.resp = none ∧
        res.err = some (Error.plain perr) ∧ res.executions = 0 ∧
        ∀ c req, Call.Do c req ∉ res.calls) ∧
    (∀ cerr, e.NewRequest r.Method (e.urlString u) r.Body = .error cerr →
      ∃ res, Download e r = some res ∧ res.resp = none ∧
        res.err = some (Error.plain cerr) ∧ res.executions = 0 ∧
        ∀ c req, Call.Do c req ∉ res.calls) := by
  constructor
  · intro req0 perr hn hk hp hparse
    obtain ⟨req, hprep⟩ := Download.cookies_total e r.Cookie (Download.withHeader r req0) hk
    have hc : Download.client e r = .error perr := by
      simp [Download.client, hp, hparse]
    refine ⟨_, Download_client_error e r u req0 req perr hu hn hprep hc, rfl, rfl, ?_, ?_⟩
    · simp [Result.executions, List.countP_append, clientCalls_countP]
    · intro c req
      simp [Download.clientCalls, hp]
  · intro cerr hn
    refine ⟨_, Download_new_error e r u cerr hu hn, rfl, rfl, ?_, ?_⟩
    · simp [Result.executions]
    · intro c req
      simp

/-- Claim C5, amended, with a proxy string that the parser rejects and with a
request constructor that fails (there even on a nil cookie pointer). -/
theorem Download_fails_before_exchange_witness :
    (∃ res, Download (badProxyEnv ⟨"bad proxy"⟩) (NewRequest.WithProxy "::") = some res ∧
      res.resp = none ∧ res.err = some (Error.plain ⟨"bad proxy"⟩) ∧ res.executions = 0 ∧
      ∀ c req, Call.Do c req ∉ res.calls) ∧
    (∃ res, Download (badMethodEnv ⟨"bad method"⟩) nilCookieRequest = some res ∧
      res.resp = none ∧ res.err = some (Error.plain ⟨"bad method"⟩) ∧ res.executions = 0 ∧
      ∀ c req, Call.Do c req ∉ res.calls) :=
  ⟨(Download_fails_before_exchange (badProxyEnv ⟨"bad proxy"⟩) (NewRequest.WithProxy "::") {}
      rfl).1 { Method := "GET", Url := "", Header := [], Body := [] } ⟨"bad proxy"⟩ rfl
      (by decide) (by decide) rfl,
   (Download_fails_before_exchange (badMethodEnv ⟨"bad method"⟩) nilCookieRequest {} rfl).2
      ⟨"bad method"⟩ rfl⟩

/-- Claim C6: for every Response that `Download` returns, converting its Text
back to bytes gives exactly its Body, whatever the bytes are (valid UTF-8 or
not). -/
theorem Download_Text_roundtrip (e : Env) (r : Request) (res : Result) (R : Response)
    (h : Download e r = some res) (hR : res.resp = some R) :
    R.Text.toBytes = R.Body := by
  obtain ⟨_, _, _, _, _, _, _, _, _, _, _, _, hT, _, _⟩ := Download_resp_inv e r res R h hR
  rw [hT]
  rfl

/-- Claim C6, at a body that is not valid UTF-8. -/
theorem Download_Text_roundtrip_witness :
    ∃ res R, Download (rawEnv 200 [255, 254, 0]) NewRequest = some res ∧
      res.resp = some R ∧ R.Body = [255, 254, 0] ∧ R.Text.toBytes = R.Body :=
  ⟨_, _, rfl, rfl, rfl, Download_Text_roundtrip (rawEnv 200 [255, 254, 0]) NewRequest _ _ rfl rfl⟩

/-- Claim C7 as stated fails: with a markup parser that reports failure and,
as goquery does, returns a nil document with it, `Download` returns a Response
and no error, and the Response's Html is nil; no fallback document is put in
its place. -/
theorem Download_Html_nil_on_parse_failure :
    ∃ res R, Download (rawEnv 200 [60]) NewRequest = some res ∧ res.resp = some R ∧
      res.err = none ∧
      (rawEnv 200 [60]).NewDocumentFromReader R.Body = (none, some ⟨"markup"⟩) ∧
      R.Html = none :=
  ⟨_, _, rfl, rfl, rfl, rfl, rfl⟩

/-- Claim C7, amended: whenever `Download` returns a Response, its Html is
exactly the document pointer the markup parser returned for the body: the
parsed document `d` when the parser returns `d` and no error, and nil when
the parser returns nil with its error. -/
theorem Download_Html (e : Env) (r : Request) (res : Result) (R : Response)
    (h : Download e r = some res) (hR : res.resp = some R) :
    R.Html = (e.NewDocumentFromReader R.Body).1 ∧
    (∀ d, e.NewDocumentFromReader R.Body = (some d, none) → R.Html = some d) ∧
    (∀ x, e.NewDocumentFromReader R.Body = (none, some x) → R.Html = none) := by
  obtain ⟨_, _, _, _, _, _, _, _, _, _, _, _, _, hH, _⟩ := Download_resp_inv e r res R h hR
  refine ⟨hH, ?_, ?_⟩
  · intro d hd
    rw [hH, hd]
  · intro x hx
    rw [hH, hx]

/-- Claim C7, amended, at a parser that succeeds. -/
theorem Download_Html_witness :
    ∃ res R, Download demoEnv NewRequest = some res ∧ res.resp = some R ∧
      R.Html = some ⟨["html"]⟩ :=
  ⟨_, _, rfl, rfl,
    (Download_Html demoEnv NewRequest _ _ rfl rfl).2.1 ⟨["html"]⟩ rfl⟩

/-! ## The Request builders -/

/-- Claim C8 as stated fails, in two ways.  First, on a Request that carries a
cookie, after `SetHeader("Cookie", "a")` and `SetHeader("Cookie", "b")` the
header that `Download` hands to the transport holds for `Cookie` the one value
`b; n=v`, not `b`: the cookie loop runs after the header clone and extends
that line.  Second, on a Request whose header map holds `x-test` with value
`0`, written directly, `SetHeader("x-test", "1")` and `SetHeader("x-test", "2")`
write the canonical key `X-Test` only, and the header handed to the transport
holds both `X-Test` with `2` and `x-test` with `0`. -/
theorem SetHeader_Cookie_extended :
    (∃ r1 r2 res c req,
      (NewRequest.AddCookie "n" "v").SetHeader demoEnv "Cookie" "a" = some r1 ∧
      r1.SetHeader demoEnv "Cookie" "b" = some r2 ∧
      Download demoEnv r2 = some res ∧ Call.Do c req ∈ res.calls ∧
      Header.Values demoEnv req.Header "Cookie" = ["b; n=v"] ∧
      Header.Values demoEnv req.Header "Cookie" ≠ ["b"]) ∧
    (∃ r1 r2 res c req,
      lowerKeyRequest.SetHeader canonEnv "x-test" "1" = some r1 ∧
      r1.SetHeader canonEnv "x-test" "2" = some r2 ∧
      r2.Header = some [("X-Test", ["2"]), ("x-test", ["0"])] ∧
      Download canonEnv r2 = some res ∧ Call.Do c req ∈ res.calls ∧
      req.Header = [("X-Test", ["2"]), ("x-test", ["0"])]) :=
  ⟨⟨_, _, _, DefaultClient,
      { Method := "GET", Url := "", Header := [("Cookie", ["b; n=v"])], Body := [] },
      rfl, rfl, rfl, by decide, by decide, by decide⟩,
   ⟨_, _, _, DefaultClient,
      { Method := "GET", Url := "", Header := [("X-Test", ["2"]), ("x-test", ["0"])],
        Body := [] },
      rfl, rfl, rfl, rfl, by decide, rfl⟩⟩

/-- Claim C8, amended: on a Request with a non-nil Header, `SetHeader(k, v1)`
then `SetHeader(k, v2)` do not panic; afterwards the map entry under the
canonical form of `k`, which is the entry `Header.Values(k)` reads, is exactly
the one value `v2`, whatever it held before, and the entry under every other
key (another spelling of `k` included) is as it was.  Every header `Download`
hands to the transport then holds exactly one value under the canonical form
of `k`; that value is `v2` when the Request has no cookies or `k` is not the
`Cookie` header; and its entry under every other key is as in the original
header, the canonical `Cookie` key excepted when the Request has cookies. -/
theorem SetHeader_overwrites (e : Env) (r : Request) (h : Header) (k v1 v2 : String)
    (hh : r.Header = some h) :
    ∃ r1 r2 h2, r.SetHeader e k v1 = some r1 ∧ r1.SetHeader e k v2 = some r2 ∧
      r2.Header = some h2 ∧ Header.Values e h2 k = [v2] ∧
      (∀ key, key ≠ e.CanonicalMIMEHeaderKey k → Header.index h2 key = Header.index h key) ∧
      ∀ res c req, Download e r2 = some res → Call.Do c req ∈ res.calls →
        (Header.Values e req.Header k).length = 1 ∧
        (r.Cookie = [] ∨ e.CanonicalMIMEHeaderKey k ≠ e.CanonicalMIMEHeaderKey "Cookie" →
          Header.Values e req.Header k = [v2]) ∧
        (∀ key, key ≠ e.CanonicalMIMEHeaderKey k →
          r.Cookie = [] ∨ key ≠ e.CanonicalMIMEHeaderKey "Cookie" →
          Header.index req.Header key = Header.index h key) := by
  refine ⟨{ r with Header := some (Header.Set e h k v1) },
    { r with Header := some (Header.Set e (Header.Set e h k v1) k v2) },
    Header.Set e (Header.Set e h k v1) k v2, ?_, rfl, rfl,
    Header.Values_Set_self e _ k v2, Header.index_Set_Set_ne e h k v1 v2, ?_⟩
  · simp only [Request.SetHeader, hh]
  · intro res c req hd hm
    obtain ⟨u, req0, _, _, hp, _⟩ := Download_Do_inv e _ res c req hd hm
    obtain ⟨cs, hcs, hreq⟩ := Download.cookies_some_inv e _ _ _ hp
    have hcs1 : r.Cookie = cs.map some := hcs
    have hnil : r.Cookie = [] → cs = [] := by
      intro hc
      cases cs with
      | nil => rfl
      | cons a t => simp [hc] at hcs1
    subst hreq
    have hgood : r.Cookie = [] ∨
        e.CanonicalMIMEHeaderKey k ≠ e.CanonicalMIMEHeaderKey "Cookie" →
        Header.Values e (cs.foldl (HttpRequest.AddCookie e) (Download.withHeader
          { r with Header := some (Header.Set e (Header.Set e h k v1) k v2) } req0)).Header k
          = [v2] := by
      rintro (hc | hk)
      · rw [hnil hc]
        exact Header.Values_Set_self e _ k v2
      · show Header.index _ (e.CanonicalMIMEHeaderKey k) = [v2]
        rw [HttpRequest.foldl_AddCookie_index e cs _ _ hk]
        exact Header.Values_Set_self e _ k v2
    refine ⟨?_, hgood, ?_⟩
    · by_cases hk : e.CanonicalMIMEHeaderKey k = e.CanonicalMIMEHeaderKey "Cookie"
      · by_cases hc : cs = []
        · have hc0 : r.Cookie = [] := by rw [hcs1, hc]; rfl
          rw [hgood (Or.inl hc0)]
          rfl
        · have hline := HttpRequest.foldl_AddCookie_line e cs
            (Download.withHeader
              { r with Header := some (Header.Set e (Header.Set e h k v1) k v2) } req0) hc
          have heq : ∀ H : Header, Header.Values e H k = Header.Values e H "Cookie" := by
            intro H
            simp only [Header.Values, hk]
          rw [heq, hline]
          rfl
      · rw [hgood (Or.inr hk)]
        rfl
    · intro key hkey hor
      rcases hor with hc | hck
      · rw [hnil hc]
        exact Header.index_Set_Set_ne e h k v1 v2 key hkey
      · rw [HttpRequest.foldl_AddCookie_index e cs _ key hck]
        exact Header.index_Set_Set_ne e h k v1 v2 key hkey

/-- Claim C8, amended, from a header that held two values for `X`: the
transport is handed exactly the value `2` for `X`. -/
theorem SetHeader_overwrites_witness :
    demoRequest.Header = some [("X", ["0", "00"])] ∧
    ∃ r1 r2 res c req, demoRequest.SetHeader demoEnv "X" "1" = some r1 ∧
      r1.SetHeader demoEnv "X" "2" = some r2 ∧
      Download demoEnv r2 = some res ∧ Call.Do c req ∈ res.calls ∧
      Header.Values demoEnv req.Header "X" = ["2"] := by
  obtain ⟨r1, r2, h2, e1, e2, _, _, _, hD⟩ :=
    SetHeader_overwrites demoEnv demoRequest [("X", ["0", "00"])] "X" "1" "2" rfl
  cases e1
  cases e2
  exact ⟨rfl, _, _, _, DefaultClient,
    { Method := "GET", Url := "", Header := [("X", ["2"])], Body := [] },
    rfl, rfl, rfl, by decide,
    (hD _ DefaultClient { Method := "GET", Url := "", Header := [("X", ["2"])], Body := [] }
      rfl (by decide)).2.1 (Or.inl rfl)⟩

/-- Claim C9: `AddCookie(n, v)` leaves the Request with its former cookie list
followed by the one cookie `(n, v)`: the length grows by one and the earlier
cookies keep their places, whether or not one of them is named `n`.  The
request `Download` hands to the transport is the one built by `AddCookie` of
`net/http` over that list from first to last, so its `Cookie` header is one
line listing the pairs in list order (after what the cloned header already
held for `Cookie`). -/
theorem AddCookie_appends (e : Env) (r : Request) (n v : String) :
    (r.AddCookie n v).Cookie = r.Cookie ++ [some (⟨n, v⟩ : Cookie)] ∧
    (r.AddCookie n v).Cookie.length = r.Cookie.length + 1 ∧
    (∀ i, i < r.Cookie.length → (r.AddCookie n v).Cookie[i]? = r.Cookie[i]?) ∧
    ∀ res c req, Download e (r.AddCookie n v) = some res → Call.Do c req ∈ res.calls →
      ∃ u req0 cs, r.Url = some u ∧
        e.NewRequest r.Method (e.urlString u) r.Body = .ok req0 ∧
        r.Cookie = cs.map some ∧
        req = (cs ++ [(⟨n, v⟩ : Cookie)]).foldl (HttpRequest.AddCookie e)
          (Download.withHeader r req0) ∧
        Header.Values e req.Header "Cookie" =
          [String.intercalate "; "
            ((if Header.Get e (Download.withHeader r req0).Header "Cookie" ≠ "" then
                [Header.Get e (Download.withHeader r req0).Header "Cookie"]
              else []) ++
              (cs ++ [(⟨n, v⟩ : Cookie)]).map (Cookie.pair e))] := by
  refine ⟨rfl, by simp [Request.AddCookie], ?_, ?_⟩
  · intro i hi
    simp only [Request.AddCookie]
    exact List.getElem?_append_left hi
  · intro res c req hd hm
    obtain ⟨u, req0, hu, hn, hp, _⟩ := Download_Do_inv e _ res c req hd hm
    obtain ⟨cs1, hcs1, hreq⟩ := Download.cookies_some_inv e _ _ _ hp
    obtain ⟨cs, hcs, hcs2⟩ := map_some_append_inv r.Cookie ⟨n, v⟩ cs1 hcs1
    subst hcs2
    refine ⟨u, req0, cs, hu, hn, hcs, hreq, ?_⟩
    rw [hreq]
    exact HttpRequest.foldl_AddCookie_line e (cs ++ [(⟨n, v⟩ : Cookie)])
      (Download.withHeader r req0) (by simp)

/-- Claim C9, adding a second cookie of the same name: both are kept, in
order, and both reach the transport in that order. -/
theorem AddCookie_appends_witness :
    ((NewRequest.AddCookie "n" "1").AddCookie "n" "2").Cookie
      = [some ⟨"n", "1"⟩, some ⟨"n", "2"⟩] ∧
    ∃ res c req, Download demoEnv ((NewRequest.AddCookie "n" "1").AddCookie "n" "2") = some res ∧
      Call.Do c req ∈ res.calls ∧
      Header.Values demoEnv req.Header "Cookie" = ["n=1; n=2"] := by
  have T := AddCookie_appends demoEnv (NewRequest.AddCookie "n" "1") "n" "2"
  refine ⟨T.1, _, DefaultClient,
    { Method := "GET", Url := "", Header := [("Cookie", ["n=1; n=2"])], Body := [] },
    rfl, by decide, ?_⟩
  obtain ⟨u, req0, cs, hu, hn, hcs, _, hline⟩ := T.2.2.2 _ DefaultClient
    { Method := "GET", Url := "", Header := [("Cookie", ["n=1; n=2"])], Body := [] }
    rfl (by decide)
  cases hu
  cases hn
  have hcs0 : cs = [⟨"n", "1"⟩] := by
    have h1 : cs.map some = [some (⟨"n", "1"⟩ : Cookie)] := hcs.symm
    cases cs with
    | nil => simp at h1
    | cons a t =>
      cases t with
      | nil => simpa using h1
      | cons b t2 => simp at h1
  subst hcs0
  exact hline.trans (by decide)

/-- Claim C10: `NewRequest()` has method GET, no cookies, an empty non-nil
header map, an empty body, an empty proxy and a non-nil, empty Url; and every
finite sequence of `SetHeader`, `SetBody`, `AddCookie` and `WithProxy` calls
from it runs without panic and ends in a Request whose Url and Header are
non-nil (and whose cookie pointers are non-nil), on which a further
`SetHeader` does not panic and `Download` does not panic. -/
theorem NewRequest_invariant (e : Env) :
    NewRequest.Method = "GET" ∧ NewRequest.Cookie = [] ∧ NewRequest.Header = some [] ∧
    NewRequest.Body = [] ∧ NewRequest.Proxy = "" ∧
    NewRequest.Url = some { Scheme := "", Host := "", Path := "" } ∧
    ∀ ms : List Mutator, ∃ r, Mutator.runAll e NewRequest ms = some r ∧
      r.Url ≠ none ∧ r.Header ≠ none ∧ none ∉ r.Cookie ∧
      (∀ k v, r.SetHeader e k v ≠ none) ∧ Download e r ≠ none := by
  refine ⟨rfl, rfl, rfl, rfl, rfl, rfl, ?_⟩
  intro ms
  obtain ⟨r, hr, hu, hh, hk⟩ := Mutator.runAll_invariant e ms NewRequest (by simp [NewRequest])
    (by simp [NewRequest]) (by simp [NewRequest])
  refine ⟨r, hr, hu, hh, hk, ?_, ?_⟩
  · intro k v
    obtain ⟨r1, h1, _, _⟩ := Mutator.run_invariant e r (Mutator.SetHeader k v) hu hh hk
    simp only [Mutator.run] at h1
    rw [h1]
    simp
  · cases hU : r.Url with
    | none => exact absurd hU hu
    | some u =>
      obtain ⟨res, hres, _⟩ := Download_returns e r u hU hk
      rw [hres]
      simp

end Goribot
